import Mathlib

/-!
Shallow embedding of the spending-rules engine
(src/engine/expense-validator.ts, src/utils/fx.ts, src/utils/date.ts,
src/domain/*), together with theorems settling the specification claims.

Modelling conventions:
* JS numbers carrying money amounts, rates and policy thresholds are `Rat`.
* A JS `Date` is its UTC civil-day index (what `Date.UTC(getUTCFullYear,
  getUTCMonth, getUTCDate)` determines, divided by `msPerDay`) together with
  the discarded time-of-day component.
* A record lookup that may yield `undefined` is an `Option`.
* A function that may `throw` returns `Except String`.
* The mutable `alerts` array that rules push into is modelled by each rule
  returning its own alert list; the orchestrator concatenates them in the
  exact push order of the source.
-/

namespace SpendingRules

/-! ## Domain model (src/domain) -/

inductive ExpenseStatus
  | APPROVED
  | PENDING
  | REJECTED
deriving DecidableEq, Repr

inductive ExpenseCategory
  | FOOD
  | TRANSPORT
  | SOFTWARE
  | LODGING
  | OTHER
deriving DecidableEq, Repr

def ExpenseCategory.toName : ExpenseCategory → String
  | .FOOD => "FOOD"
  | .TRANSPORT => "TRANSPORT"
  | .SOFTWARE => "SOFTWARE"
  | .LODGING => "LODGING"
  | .OTHER => "OTHER"

/-- A JS `Date`: `dayUTC` is the UTC civil-day index (so
`Date.UTC(getUTCFullYear, getUTCMonth, getUTCDate) = dayUTC * msPerDay`) and
`msOfDay` the time-of-day in milliseconds, discarded by `daysBetween`. -/
structure JsDate where
  dayUTC : Int
  msOfDay : Nat
deriving DecidableEq, Repr

structure Expense where
  id : String
  amount : Rat
  currency : String
  category : ExpenseCategory
  date : JsDate
deriving DecidableEq, Repr

structure Employee where
  id : String
  firstName : String
  lastName : String
  costCenterId : String
deriving DecidableEq, Repr

structure CategoryLimit where
  approvedUpTo : Rat
  pendingUpTo : Rat
deriving DecidableEq, Repr

structure CostCenterRule where
  costCenterId : String
  forbiddenCategory : ExpenseCategory
deriving DecidableEq, Repr

structure AgeLimit where
  rejectedAfterDays : Rat
  pendingAfterDays : Rat
deriving DecidableEq, Repr

structure Policy where
  baseCurrency : String
  ageLimit : AgeLimit
  categoryLimits : ExpenseCategory → Option CategoryLimit
  costCenterRules : List CostCenterRule

structure Alert where
  code : String
  message : String
deriving DecidableEq, Repr

structure ValidationResult where
  expenseId : String
  status : ExpenseStatus
  alerts : List Alert
deriving DecidableEq, Repr

/-! ## src/utils/date.ts -/

def msPerDay : Int := 24 * 60 * 60 * 1000

/-- `daysBetween(earlier, later)`: `Math.floor((l - e) / msPerDay)` where
`e`, `l` are the UTC-midnight timestamps of the two dates. -/
def daysBetween (earlier later : JsDate) : Int :=
  Int.fdiv (later.dayUTC * msPerDay - earlier.dayUTC * msPerDay) msPerDay

/-! ## src/utils/fx.ts -/

structure ExchangeRates where
  base : String
  rates : String → Option Rat

/-- The single-quote character, used by the source's interpolated messages. -/
def sq : String := String.singleton (Char.ofNat 39)

def currencyNotFoundMsg (c : String) : String :=
  "Currency " ++ sq ++ c ++ sq ++ " not found in exchange rates"

/-- `amount.toFixed(2)` of the source's message interpolations, modelled on
`Rat` by rounding half away from zero to two decimals. -/
def toFixed2 (q : Rat) : String :=
  let scaled : Int :=
    if q < 0 then -(Rat.floor (-q * 100 + 1 / 2)) else Rat.floor (q * 100 + 1 / 2)
  let sign := if scaled < 0 then "-" else ""
  let m := scaled.natAbs
  sign ++ toString (m / 100) ++ "." ++
    (if m % 100 < 10 then "0" else "") ++ toString (m % 100)

/-- The rate of a currency relative to the table's base: the base currency has
an implicit rate of 1, anything else is looked up in the rate map. -/
def resolveRate (rates : ExchangeRates) (c : String) : Option Rat :=
  if c = rates.base then some 1 else rates.rates c

/-- `convertCurrency(amount, fromCurrency, toCurrency, rates)`. -/
def convertCurrency (amount : Rat) (fromCurrency toCurrency : String)
    (rates : ExchangeRates) : Except String Rat :=
  if fromCurrency = toCurrency then
    .ok amount
  else
    match resolveRate rates fromCurrency, resolveRate rates toCurrency with
    | none, _ => .error (currencyNotFoundMsg fromCurrency)
    | some _, none => .error (currencyNotFoundMsg toCurrency)
    | some fromRate, some toRate =>
      if fromRate = toRate then .ok amount
      else .ok (amount / fromRate * toRate)

/-! ## src/engine/expense-validator.ts -/

structure RuleContext where
  expense : Expense
  employee : Employee
  policy : Policy
  amountToCheck : Rat
  asOf : JsDate

def daysOldOf (ctx : RuleContext) : Int :=
  max 0 (daysBetween ctx.expense.date ctx.asOf)

def ageRejectedMsg (daysOld : Int) (limit : Rat) : String :=
  "Expense is " ++ toString daysOld ++ " days old (Limit: " ++ toString limit ++ ")."

def agePendingMsg (daysOld : Int) : String :=
  "Expense is " ++ toString daysOld ++ " days old; requires review."

def checkAge (ctx : RuleContext) : ExpenseStatus × List Alert :=
  let daysOld := daysOldOf ctx
  let rejectedAfterDays := ctx.policy.ageLimit.rejectedAfterDays
  let pendingAfterDays := ctx.policy.ageLimit.pendingAfterDays
  if (daysOld : Rat) > rejectedAfterDays then
    (.REJECTED, [⟨"AGE_LIMIT", ageRejectedMsg daysOld rejectedAfterDays⟩])
  else if (daysOld : Rat) > pendingAfterDays then
    (.PENDING, [⟨"AGE_LIMIT", agePendingMsg daysOld⟩])
  else
    (.APPROVED, [])

def catRejectedMsg (amt pendingUpTo : Rat) (cat : ExpenseCategory) : String :=
  "$" ++ toFixed2 amt ++ " exceeds maximum allowed ($" ++ toFixed2 pendingUpTo ++
    ") for " ++ cat.toName ++ "."

def catPendingMsg (amt approvedUpTo : Rat) : String :=
  "$" ++ toFixed2 amt ++ " exceeds auto-approval limit ($" ++
    toFixed2 approvedUpTo ++ "), requires review."

def checkCategoryLimit (ctx : RuleContext) : ExpenseStatus × List Alert :=
  match ctx.policy.categoryLimits ctx.expense.category with
  | none => (.APPROVED, [])
  | some categoryPolicy =>
    if ctx.amountToCheck > categoryPolicy.pendingUpTo then
      (.REJECTED, [⟨"CATEGORY_LIMIT",
        catRejectedMsg ctx.amountToCheck categoryPolicy.pendingUpTo ctx.expense.category⟩])
    else if ctx.amountToCheck > categoryPolicy.approvedUpTo then
      (.PENDING, [⟨"CATEGORY_LIMIT",
        catPendingMsg ctx.amountToCheck categoryPolicy.approvedUpTo⟩])
    else
      (.APPROVED, [])

def costCenterMsg (ccId : String) (cat : ExpenseCategory) : String :=
  "Cost center " ++ sq ++ ccId ++ sq ++ " is not allowed to expense " ++
    sq ++ cat.toName ++ sq ++ "."

def checkCostCenter (ctx : RuleContext) : ExpenseStatus × List Alert :=
  let violation := ctx.policy.costCenterRules.find? fun r =>
    r.costCenterId == ctx.employee.costCenterId &&
      r.forbiddenCategory == ctx.expense.category
  match violation with
  | some _ =>
    (.REJECTED, [⟨"COST_CENTER_POLICY",
      costCenterMsg ctx.employee.costCenterId ctx.expense.category⟩])
  | none => (.APPROVED, [])

def getMostRestrictive (statuses : List ExpenseStatus) : ExpenseStatus :=
  if ExpenseStatus.REJECTED ∈ statuses then .REJECTED
  else if ExpenseStatus.PENDING ∈ statuses then .PENDING
  else .APPROVED

def negativeAmountMsg (a : Rat) : String :=
  "Expense has non-positive amount (" ++ toString a ++ ")."

def currencyMismatchMsg (orig : Rat) (fromC : String) (conv : Rat) (toC : String) :
    String :=
  "Converting " ++ toFixed2 orig ++ " " ++ fromC ++ " --> " ++ toFixed2 conv ++
    " " ++ toC ++ "."

def conversionErrorMsg (orig : Rat) (fromC toC errMsg : String) : String :=
  "Failed to convert " ++ toFixed2 orig ++ " " ++ fromC ++ " to " ++ toC ++ ": " ++
    errMsg ++ ". Manual review required."

def missingRatesMsg (fromC toC : String) : String :=
  "Exchange rates are required to convert " ++ fromC ++ " -> " ++ toC

/-- The currency-mismatch handling of `validateExpense` (its lines 56-83):
yields the amount to check and the conversion-related alerts pushed there, or
the propagated missing-rate-table error. -/
def convStep (expense : Expense) (policy : Policy)
    (rates : Option ExchangeRates) : Except String (Rat × List Alert) :=
  if expense.currency = policy.baseCurrency then
    .ok (expense.amount, [])
  else
    match rates with
    | none => .error (missingRatesMsg expense.currency policy.baseCurrency)
    | some r =>
      match convertCurrency expense.amount expense.currency policy.baseCurrency r with
      | .ok convertedAmount =>
        .ok (convertedAmount, [⟨"CURRENCY_MISMATCH",
          currencyMismatchMsg expense.amount expense.currency convertedAmount
            policy.baseCurrency⟩])
      | .error e =>
        .ok (expense.amount, [⟨"CURRENCY_CONVERSION_ERROR",
          conversionErrorMsg expense.amount expense.currency policy.baseCurrency e⟩])

def hasConversionError (alerts : List Alert) : Bool :=
  alerts.any fun a => a.code == "CURRENCY_CONVERSION_ERROR"

/-- `validateExpense(expense, employee, policy, rates, asOf)`. -/
def validateExpense (expense : Expense) (employee : Employee) (policy : Policy)
    (rates : Option ExchangeRates) (asOf : JsDate) :
    Except String ValidationResult :=
  if expense.amount ≤ 0 then
    .ok { expenseId := expense.id, status := .REJECTED,
          alerts := [⟨"NEGATIVE_AMOUNT", negativeAmountMsg expense.amount⟩] }
  else
    match convStep expense policy rates with
    | .error e => .error e
    | .ok (amountToCheck, convAlerts) =>
      let ctx : RuleContext := ⟨expense, employee, policy, amountToCheck, asOf⟩
      let ageResult := checkAge ctx
      let categoryResult := checkCategoryLimit ctx
      let costCenterResult := checkCostCenter ctx
      let alerts := convAlerts ++ ageResult.2 ++ categoryResult.2 ++ costCenterResult.2
      let resolved := getMostRestrictive [ageResult.1, categoryResult.1, costCenterResult.1]
      let finalStatus :=
        if hasConversionError alerts && resolved == .APPROVED then
          ExpenseStatus.PENDING
        else resolved
      .ok { expenseId := expense.id, status := finalStatus, alerts := alerts }

/-! ## The order REJECTED > PENDING > APPROVED -/

def statusRank : ExpenseStatus → Nat
  | .APPROVED => 0
  | .PENDING => 1
  | .REJECTED => 2

/-- The maximum of two statuses under REJECTED > PENDING > APPROVED. -/
def statusMax (a b : ExpenseStatus) : ExpenseStatus :=
  if statusRank a ≤ statusRank b then b else a

/-! ## Concrete inputs used by witnesses and counterexamples -/

def emp0 : Employee := ⟨"emp-1", "Ada", "Lovelace", "sales_team"⟩

/-- Policy with base USD, age thresholds 60/30, no category limits, no
cost-center rules. -/
def pol0 : Policy := ⟨"USD", ⟨60, 30⟩, fun _ => none, []⟩

/-- `pol0` with a FOOD limit of {approvedUpTo 100, pendingUpTo 150}. -/
def polFood : Policy :=
  ⟨"USD", ⟨60, 30⟩, fun c => if c = .FOOD then some ⟨100, 150⟩ else none, []⟩

/-- Rate table based in USD knowing only EUR (rate 2). -/
def ratesUSD : ExchangeRates := ⟨"USD", fun c => if c = "EUR" then some 2 else none⟩

/-- Rate table based in USD with an empty rate map. -/
def ratesEmpty : ExchangeRates := ⟨"USD", fun _ => none⟩

/-- Employee in cost center core_engineering. -/
def empCE : Employee := ⟨"emp-2", "Grace", "Hopper", "core_engineering"⟩

/-- The spec's literal scenario policy: base USD, FOOD limit {100, 150},
FOOD forbidden for cost center core_engineering. -/
def polScenario : Policy :=
  ⟨"USD", ⟨60, 30⟩, fun c => if c = .FOOD then some ⟨100, 150⟩ else none,
   [⟨"core_engineering", .FOOD⟩]⟩

end SpendingRules

namespace SpendingRules

/-! ## Helper lemmas -/

theorem hasConversionError_iff (al : List Alert) :
    hasConversionError al = true ↔ ∃ a ∈ al, a.code = "CURRENCY_CONVERSION_ERROR" := by
  simp [hasConversionError]

theorem validateExpense_nonpos (expense : Expense) (employee : Employee)
    (policy : Policy) (rates : Option ExchangeRates) (asOf : JsDate)
    (hle : expense.amount ≤ 0) :
    validateExpense expense employee policy rates asOf =
      .ok { expenseId := expense.id, status := .REJECTED,
            alerts := [⟨"NEGATIVE_AMOUNT", negativeAmountMsg expense.amount⟩] } := by
  unfold validateExpense
  rw [if_pos hle]

/-- The alert list accumulated by a positive-amount evaluation whose
currency-mismatch handling produced amount `amt` and alerts `cAl`. -/
def runAlerts (expense : Expense) (employee : Employee) (policy : Policy)
    (asOf : JsDate) (amt : Rat) (cAl : List Alert) : List Alert :=
  cAl ++ (checkAge ⟨expense, employee, policy, amt, asOf⟩).2 ++
    (checkCategoryLimit ⟨expense, employee, policy, amt, asOf⟩).2 ++
    (checkCostCenter ⟨expense, employee, policy, amt, asOf⟩).2

/-- The most restrictive of the three rule statuses of such an evaluation. -/
def runResolved (expense : Expense) (employee : Employee) (policy : Policy)
    (asOf : JsDate) (amt : Rat) : ExpenseStatus :=
  getMostRestrictive
    [(checkAge ⟨expense, employee, policy, amt, asOf⟩).1,
     (checkCategoryLimit ⟨expense, employee, policy, amt, asOf⟩).1,
     (checkCostCenter ⟨expense, employee, policy, amt, asOf⟩).1]

theorem validateExpense_ok_pos (expense : Expense) (employee : Employee)
    (policy : Policy) (rates : Option ExchangeRates) (asOf : JsDate)
    (amt : Rat) (cAl : List Alert)
    (hpos : 0 < expense.amount)
    (hconv : convStep expense policy rates = .ok (amt, cAl)) :
    validateExpense expense employee policy rates asOf =
      .ok { expenseId := expense.id,
            status :=
              if hasConversionError (runAlerts expense employee policy asOf amt cAl) &&
                  (runResolved expense employee policy asOf amt == .APPROVED) then
                ExpenseStatus.PENDING
              else runResolved expense employee policy asOf amt,
            alerts := runAlerts expense employee policy asOf amt cAl } := by
  unfold validateExpense
  rw [if_neg (not_le.mpr hpos), hconv]
  rfl

theorem convStep_error_iff (expense : Expense) (policy : Policy)
    (rates : Option ExchangeRates) :
    (∃ msg, convStep expense policy rates = .error msg) ↔
      expense.currency ≠ policy.baseCurrency ∧ rates = none := by
  unfold convStep
  split_ifs with h
  · simp [h]
  · match rates with
    | none => simp [h]
    | some r =>
      match hc : convertCurrency expense.amount expense.currency policy.baseCurrency r with
      | .ok c => simp [hc]
      | .error e => simp [hc]

theorem convStep_same (expense : Expense) (policy : Policy)
    (rates : Option ExchangeRates)
    (h : expense.currency = policy.baseCurrency) :
    convStep expense policy rates = .ok (expense.amount, []) := by
  unfold convStep
  rw [if_pos h]

theorem convStep_missing (expense : Expense) (policy : Policy)
    (h : expense.currency ≠ policy.baseCurrency) :
    convStep expense policy none =
      .error (missingRatesMsg expense.currency policy.baseCurrency) := by
  unfold convStep
  rw [if_neg h]

theorem convStep_conv_ok (expense : Expense) (policy : Policy)
    (r : ExchangeRates) (c : Rat)
    (h : expense.currency ≠ policy.baseCurrency)
    (hc : convertCurrency expense.amount expense.currency policy.baseCurrency r = .ok c) :
    convStep expense policy (some r) =
      .ok (c, [⟨"CURRENCY_MISMATCH",
        currencyMismatchMsg expense.amount expense.currency c policy.baseCurrency⟩]) := by
  unfold convStep
  rw [if_neg h]
  show (match convertCurrency expense.amount expense.currency policy.baseCurrency r with
    | Except.ok convertedAmount => _ | Except.error e => _) = _
  rw [hc]

theorem convStep_conv_err (expense : Expense) (policy : Policy)
    (r : ExchangeRates) (e : String)
    (h : expense.currency ≠ policy.baseCurrency)
    (hc : convertCurrency expense.amount expense.currency policy.baseCurrency r = .error e) :
    convStep expense policy (some r) =
      .ok (expense.amount, [⟨"CURRENCY_CONVERSION_ERROR",
        conversionErrorMsg expense.amount expense.currency policy.baseCurrency e⟩]) := by
  unfold convStep
  rw [if_neg h]
  show (match convertCurrency expense.amount expense.currency policy.baseCurrency r with
    | Except.ok convertedAmount => _ | Except.error e => _) = _
  rw [hc]

theorem convStep_alert_codes (expense : Expense) (policy : Policy)
    (rates : Option ExchangeRates) (amt : Rat) (cAl : List Alert)
    (hconv : convStep expense policy rates = .ok (amt, cAl)) :
    ∀ a ∈ cAl, a.code = "CURRENCY_MISMATCH" ∨ a.code = "CURRENCY_CONVERSION_ERROR" := by
  by_cases h : expense.currency = policy.baseCurrency
  · rw [convStep_same expense policy rates h] at hconv
    simp_all
  · cases rates with
    | none => rw [convStep_missing expense policy h] at hconv; simp_all
    | some r =>
      cases hc : convertCurrency expense.amount expense.currency policy.baseCurrency r with
      | ok c =>
        rw [convStep_conv_ok expense policy r c h hc] at hconv
        simp only [Except.ok.injEq, Prod.mk.injEq] at hconv
        obtain ⟨rfl, rfl⟩ := hconv
        simp
      | error e =>
        rw [convStep_conv_err expense policy r e h hc] at hconv
        simp only [Except.ok.injEq, Prod.mk.injEq] at hconv
        obtain ⟨rfl, rfl⟩ := hconv
        simp

theorem convStep_amount (expense : Expense) (policy : Policy)
    (rates : Option ExchangeRates) (amt : Rat) (cAl : List Alert)
    (hconv : convStep expense policy rates = .ok (amt, cAl)) :
    (∃ r, rates = some r ∧
      convertCurrency expense.amount expense.currency policy.baseCurrency r = .ok amt) ∨
      amt = expense.amount := by
  by_cases h : expense.currency = policy.baseCurrency
  · rw [convStep_same expense policy rates h] at hconv
    simp_all
  · cases rates with
    | none => rw [convStep_missing expense policy h] at hconv; simp_all
    | some r =>
      cases hc : convertCurrency expense.amount expense.currency policy.baseCurrency r with
      | ok c =>
        rw [convStep_conv_ok expense policy r c h hc] at hconv
        left
        exact ⟨r, rfl, by simp_all⟩
      | error e => rw [convStep_conv_err expense policy r e h hc] at hconv; simp_all

theorem checkAge_alert_codes (ctx : RuleContext) :
    ∀ a ∈ (checkAge ctx).2, a.code = "AGE_LIMIT" := by
  simp only [checkAge]
  split_ifs <;> simp

theorem checkCategoryLimit_alert_codes (ctx : RuleContext) :
    ∀ a ∈ (checkCategoryLimit ctx).2, a.code = "CATEGORY_LIMIT" := by
  simp only [checkCategoryLimit]
  split
  · simp
  · split_ifs <;> simp

theorem checkCostCenter_alert_codes (ctx : RuleContext) :
    ∀ a ∈ (checkCostCenter ctx).2, a.code = "COST_CENTER_POLICY" := by
  simp only [checkCostCenter]
  split <;> simp

theorem checkAge_nonapproved_alert (ctx : RuleContext) :
    (checkAge ctx).1 ≠ .APPROVED → (checkAge ctx).2 ≠ [] := by
  simp only [checkAge]
  split_ifs <;> simp

theorem checkCategoryLimit_nonapproved_alert (ctx : RuleContext) :
    (checkCategoryLimit ctx).1 ≠ .APPROVED → (checkCategoryLimit ctx).2 ≠ [] := by
  simp only [checkCategoryLimit]
  split
  · simp
  · split_ifs <;> simp

theorem checkCostCenter_nonapproved_alert (ctx : RuleContext) :
    (checkCostCenter ctx).1 ≠ .APPROVED → (checkCostCenter ctx).2 ≠ [] := by
  simp only [checkCostCenter]
  split <;> simp

theorem getMostRestrictive_eq_statusMax (a b c : ExpenseStatus) :
    getMostRestrictive [a, b, c] = statusMax a (statusMax b c) := by
  cases a <;> cases b <;> cases c <;> rfl

theorem getMostRestrictive_ne_approved (a b c : ExpenseStatus) :
    getMostRestrictive [a, b, c] ≠ .APPROVED →
      a ≠ .APPROVED ∨ b ≠ .APPROVED ∨ c ≠ .APPROVED := by
  cases a <;> cases b <;> cases c <;> decide

end SpendingRules

namespace SpendingRules

/-! ## Claim theorems -/

/-- C3: for every expense with amount ≤ 0, validate returns immediately with
status REJECTED and an alert list containing exactly one alert, whose code is
NEGATIVE_AMOUNT; no currency conversion is attempted and no other rule runs
(no other alert appears, and no error is propagated even when the currency
differs from the base and no rate table is supplied), regardless of currency,
policy, rate table, or evaluation instant. -/
theorem nonpositive_amount_short_circuit
    (expense : Expense) (employee : Employee) (policy : Policy)
    (rates : Option ExchangeRates) (asOf : JsDate)
    (hle : expense.amount ≤ 0) :
    validateExpense expense employee policy rates asOf =
      .ok { expenseId := expense.id, status := .REJECTED,
            alerts := [⟨"NEGATIVE_AMOUNT", negativeAmountMsg expense.amount⟩] } :=
  validateExpense_nonpos expense employee policy rates asOf hle

/-- Witness for C3: a −5 EUR expense with no rate table is REJECTED with the
single NEGATIVE_AMOUNT alert. -/
theorem nonpositive_amount_short_circuit_witness :
    ((⟨"w3", -5, "EUR", .FOOD, ⟨20000, 0⟩⟩ : Expense).amount ≤ 0) ∧
    validateExpense ⟨"w3", -5, "EUR", .FOOD, ⟨20000, 0⟩⟩ emp0 pol0 none ⟨20100, 0⟩ =
      .ok { expenseId := "w3", status := .REJECTED,
            alerts := [⟨"NEGATIVE_AMOUNT", negativeAmountMsg (-5)⟩] } :=
  ⟨by decide,
   nonpositive_amount_short_circuit ⟨"w3", -5, "EUR", .FOOD, ⟨20000, 0⟩⟩ emp0 pol0
     none ⟨20100, 0⟩ (by decide)⟩

/-- C9: validate propagates an error (produces no ValidationResult) if and
only if the amount is positive, the expense currency differs from the policy
base currency, and no rate table is supplied; in every other case it returns
a well-formed result. -/
theorem error_iff_missing_rate_table
    (expense : Expense) (employee : Employee) (policy : Policy)
    (rates : Option ExchangeRates) (asOf : JsDate) :
    (∃ msg, validateExpense expense employee policy rates asOf = .error msg) ↔
      0 < expense.amount ∧ expense.currency ≠ policy.baseCurrency ∧ rates = none := by
  by_cases h1 : expense.amount ≤ 0
  · rw [validateExpense_nonpos expense employee policy rates asOf h1]
    constructor
    · rintro ⟨msg, hmsg⟩
      exact Except.noConfusion hmsg
    · rintro ⟨h0, -⟩
      exact absurd h0 (not_lt.mpr h1)
  · have h0 : 0 < expense.amount := not_le.mp h1
    cases hcs : convStep expense policy rates with
    | error msg =>
      have hra := (convStep_error_iff expense policy rates).mp ⟨msg, hcs⟩
      have hv : validateExpense expense employee policy rates asOf = .error msg := by
        unfold validateExpense
        rw [if_neg h1, hcs]
      exact iff_of_true ⟨msg, hv⟩ ⟨h0, hra.1, hra.2⟩
    | ok p =>
      have hv := validateExpense_ok_pos expense employee policy rates asOf p.1 p.2 h0
        (by rw [hcs])
      constructor
      · rintro ⟨msg, hmsg⟩
        rw [hv] at hmsg
        exact Except.noConfusion hmsg
      · rintro ⟨-, hne, hnone⟩
        obtain ⟨msg, hmsg⟩ := (convStep_error_iff expense policy rates).mpr ⟨hne, hnone⟩
        rw [hmsg] at hcs
        exact Except.noConfusion hcs

/-- C2: in every returned ValidationResult, if the alert list contains a
CURRENCY_CONVERSION_ERROR alert then the status is PENDING or REJECTED,
never APPROVED. -/
theorem conversion_error_never_approved
    (expense : Expense) (employee : Employee) (policy : Policy)
    (rates : Option ExchangeRates) (asOf : JsDate) (res : ValidationResult)
    (hok : validateExpense expense employee policy rates asOf = .ok res)
    (hc : ∃ a ∈ res.alerts, a.code = "CURRENCY_CONVERSION_ERROR") :
    res.status = .PENDING ∨ res.status = .REJECTED := by
  by_cases h1 : expense.amount ≤ 0
  · rw [validateExpense_nonpos expense employee policy rates asOf h1] at hok
    injection hok with h2
    subst h2
    right
    rfl
  · have h0 : 0 < expense.amount := not_le.mp h1
    cases hcs : convStep expense policy rates with
    | error msg =>
      unfold validateExpense at hok
      rw [if_neg h1, hcs] at hok
      exact Except.noConfusion hok
    | ok p =>
      rw [validateExpense_ok_pos expense employee policy rates asOf p.1 p.2 h0
        (by rw [hcs])] at hok
      injection hok with h2
      subst h2
      dsimp only at hc ⊢
      split
      · left; rfl
      · next hb =>
        rw [Bool.not_eq_true, Bool.and_eq_false_iff] at hb
        cases hb with
        | inl hb =>
          rw [← hasConversionError_iff] at hc
          exact absurd hc (by simp [hb])
        | inr hb =>
          have : runResolved expense employee policy asOf p.1 ≠ .APPROVED := by
            intro h
            rw [h] at hb
            simp at hb
          cases hr : runResolved expense employee policy asOf p.1 with
          | APPROVED => exact absurd hr this
          | PENDING => left; rfl
          | REJECTED => right; rfl

/-- Witness for C2: a 10 EUR expense against a base-USD policy with an empty
rate map records a CURRENCY_CONVERSION_ERROR alert and ends PENDING. -/
theorem conversion_error_never_approved_witness :
    validateExpense ⟨"w2", 10, "EUR", .OTHER, ⟨20000, 0⟩⟩ emp0 pol0
        (some ratesEmpty) ⟨20000, 5⟩ =
      .ok { expenseId := "w2", status := .PENDING,
            alerts := [⟨"CURRENCY_CONVERSION_ERROR",
              conversionErrorMsg 10 "EUR" "USD" (currencyNotFoundMsg "EUR")⟩] } ∧
    (ExpenseStatus.PENDING = ExpenseStatus.PENDING ∨
      ExpenseStatus.PENDING = ExpenseStatus.REJECTED) := by
  have hok : validateExpense ⟨"w2", 10, "EUR", .OTHER, ⟨20000, 0⟩⟩ emp0 pol0
      (some ratesEmpty) ⟨20000, 5⟩ =
      .ok { expenseId := "w2", status := .PENDING,
            alerts := [⟨"CURRENCY_CONVERSION_ERROR",
              conversionErrorMsg 10 "EUR" "USD" (currencyNotFoundMsg "EUR")⟩] } := by
    rfl
  refine ⟨hok, ?_⟩
  exact conversion_error_never_approved ⟨"w2", 10, "EUR", .OTHER, ⟨20000, 0⟩⟩ emp0
    pol0 (some ratesEmpty) ⟨20000, 5⟩ _ hok
    ⟨⟨"CURRENCY_CONVERSION_ERROR",
      conversionErrorMsg 10 "EUR" "USD" (currencyNotFoundMsg "EUR")⟩,
     List.mem_singleton.mpr rfl, rfl⟩

end SpendingRules

namespace SpendingRules

/-- C10: every non-approval is explained by at least one alert: whenever a
returned ValidationResult has status PENDING or REJECTED, its alert list is
non-empty. -/
theorem nonapproval_has_alert
    (expense : Expense) (employee : Employee) (policy : Policy)
    (rates : Option ExchangeRates) (asOf : JsDate) (res : ValidationResult)
    (hok : validateExpense expense employee policy rates asOf = .ok res)
    (hst : res.status = .PENDING ∨ res.status = .REJECTED) :
    res.alerts ≠ [] := by
  by_cases h1 : expense.amount ≤ 0
  · rw [validateExpense_nonpos expense employee policy rates asOf h1] at hok
    injection hok with h2
    subst h2
    simp
  · have h0 : 0 < expense.amount := not_le.mp h1
    cases hcs : convStep expense policy rates with
    | error msg =>
      unfold validateExpense at hok
      rw [if_neg h1, hcs] at hok
      exact Except.noConfusion hok
    | ok p =>
      rw [validateExpense_ok_pos expense employee policy rates asOf p.1 p.2 h0
        (by rw [hcs])] at hok
      injection hok with h2
      subst h2
      dsimp only at hst ⊢
      split at hst
      · next hb =>
        rw [Bool.and_eq_true] at hb
        obtain ⟨a, ha, -⟩ := (hasConversionError_iff _).mp hb.1
        exact List.ne_nil_of_mem ha
      · have hne : runResolved expense employee policy asOf p.1 ≠ .APPROVED := by
          rcases hst with h | h <;> simp [h]
        unfold runResolved at hne
        intro hnil
        unfold runAlerts at hnil
        simp only [List.append_eq_nil] at hnil
        obtain ⟨⟨⟨-, h2a⟩, h2b⟩, h2c⟩ := hnil
        rcases getMostRestrictive_ne_approved _ _ _ hne with h | h | h
        · exact checkAge_nonapproved_alert _ h h2a
        · exact checkCategoryLimit_nonapproved_alert _ h h2b
        · exact checkCostCenter_nonapproved_alert _ h h2c

/-- Witness for C10: a 120 USD FOOD expense, limits {100, 150}, ends PENDING
with a non-empty alert list. -/
theorem nonapproval_has_alert_witness :
    ([⟨"CATEGORY_LIMIT", catPendingMsg 120 100⟩] : List Alert) ≠ [] :=
  nonapproval_has_alert ⟨"w10", 120, "USD", .FOOD, ⟨20000, 0⟩⟩ emp0 polFood none
    ⟨20000, 0⟩ ⟨"w10", .PENDING, [⟨"CATEGORY_LIMIT", catPendingMsg 120 100⟩]⟩
    (by rfl) (Or.inl rfl)

/-- C5: the age rule computes `daysOld = max(0, daysBetween(expenseDate, asOf))`
over UTC day boundaries (negative raw difference clamps to 0, never an error),
and decides: `daysOld == pendingAfterDays` is APPROVED with no alert (under the
policy invariant pendingAfterDays ≤ rejectedAfterDays);
`pendingAfterDays < daysOld ≤ rejectedAfterDays` is PENDING with an AGE_LIMIT
alert; `daysOld > rejectedAfterDays` is REJECTED with an AGE_LIMIT alert. -/
theorem age_rule_boundaries (ctx : RuleContext) :
    daysBetween ctx.expense.date ctx.asOf =
      ctx.asOf.dayUTC - ctx.expense.date.dayUTC ∧
    (daysBetween ctx.expense.date ctx.asOf < 0 → daysOldOf ctx = 0) ∧
    (ctx.policy.ageLimit.pendingAfterDays ≤ ctx.policy.ageLimit.rejectedAfterDays →
      (daysOldOf ctx : Rat) = ctx.policy.ageLimit.pendingAfterDays →
      checkAge ctx = (.APPROVED, [])) ∧
    (ctx.policy.ageLimit.pendingAfterDays < (daysOldOf ctx : Rat) →
      (daysOldOf ctx : Rat) ≤ ctx.policy.ageLimit.rejectedAfterDays →
      checkAge ctx = (.PENDING, [⟨"AGE_LIMIT", agePendingMsg (daysOldOf ctx)⟩])) ∧
    ((daysOldOf ctx : Rat) > ctx.policy.ageLimit.rejectedAfterDays →
      checkAge ctx = (.REJECTED, [⟨"AGE_LIMIT",
        ageRejectedMsg (daysOldOf ctx) ctx.policy.ageLimit.rejectedAfterDays⟩])) := by
  refine ⟨?_, ?_, ?_, ?_, ?_⟩
  · unfold daysBetween
    rw [← sub_mul]
    exact Int.mul_fdiv_cancel _ (by norm_num [msPerDay])
  · intro h
    unfold daysOldOf
    exact max_eq_left h.le
  · intro hinv heq
    have h1 : ¬ ctx.policy.ageLimit.rejectedAfterDays < (daysOldOf ctx : Rat) :=
      not_lt.mpr (heq ▸ hinv)
    have h2 : ¬ ctx.policy.ageLimit.pendingAfterDays < (daysOldOf ctx : Rat) :=
      not_lt.mpr (le_of_eq heq)
    simp only [checkAge, gt_iff_lt]
    rw [if_neg h1, if_neg h2]
  · intro hp hr
    have h1 : ¬ ctx.policy.ageLimit.rejectedAfterDays < (daysOldOf ctx : Rat) :=
      not_lt.mpr hr
    simp only [checkAge, gt_iff_lt]
    rw [if_neg h1, if_pos hp]
  · intro hr
    simp only [checkAge, gt_iff_lt]
    rw [if_pos hr]

/-- Witness for C5: 45 days old against thresholds {pending 30, rejected 60}
is PENDING with an AGE_LIMIT alert. -/
theorem age_rule_boundaries_witness :
    checkAge ⟨⟨"w5", 10, "USD", .OTHER, ⟨20000, 0⟩⟩, emp0, pol0, 10, ⟨20045, 0⟩⟩ =
      (.PENDING, [⟨"AGE_LIMIT", agePendingMsg
        (daysOldOf ⟨⟨"w5", 10, "USD", .OTHER, ⟨20000, 0⟩⟩, emp0, pol0, 10, ⟨20045, 0⟩⟩)⟩]) :=
  (age_rule_boundaries
    ⟨⟨"w5", 10, "USD", .OTHER, ⟨20000, 0⟩⟩, emp0, pol0, 10, ⟨20045, 0⟩⟩).2.2.2.1
    (by decide) (by decide)

end SpendingRules

namespace SpendingRules

/-- C6: the category rule approves with no alert when the category has no
limit entry; otherwise, with both thresholds inclusive and under the policy
invariant approvedUpTo ≤ pendingUpTo for the approval tier:
amount ≤ approvedUpTo is APPROVED with no alert,
approvedUpTo < amount ≤ pendingUpTo is PENDING with a CATEGORY_LIMIT alert,
amount > pendingUpTo is REJECTED with a CATEGORY_LIMIT alert. The amount
checked is the post-conversion amount when a successful conversion occurred
and the original amount otherwise. -/
theorem category_rule_boundaries :
    (∀ ctx : RuleContext,
      (ctx.policy.categoryLimits ctx.expense.category = none →
        checkCategoryLimit ctx = (.APPROVED, [])) ∧
      (∀ cl : CategoryLimit, ctx.policy.categoryLimits ctx.expense.category = some cl →
        (cl.approvedUpTo ≤ cl.pendingUpTo → ctx.amountToCheck ≤ cl.approvedUpTo →
          checkCategoryLimit ctx = (.APPROVED, [])) ∧
        (cl.approvedUpTo < ctx.amountToCheck → ctx.amountToCheck ≤ cl.pendingUpTo →
          checkCategoryLimit ctx = (.PENDING, [⟨"CATEGORY_LIMIT",
            catPendingMsg ctx.amountToCheck cl.approvedUpTo⟩])) ∧
        (ctx.amountToCheck > cl.pendingUpTo →
          checkCategoryLimit ctx = (.REJECTED, [⟨"CATEGORY_LIMIT",
            catRejectedMsg ctx.amountToCheck cl.pendingUpTo ctx.expense.category⟩])))) ∧
    (∀ (e : Expense) (p : Policy) (r : Option ExchangeRates) (amt : Rat)
        (cAl : List Alert), convStep e p r = .ok (amt, cAl) →
      (∃ rt, r = some rt ∧
        convertCurrency e.amount e.currency p.baseCurrency rt = .ok amt) ∨
        amt = e.amount) := by
  constructor
  · intro ctx
    constructor
    · intro hnone
      simp only [checkCategoryLimit, hnone]
    · intro cl hsome
      refine ⟨?_, ?_, ?_⟩
      · intro hinv hle
        have h1 : ¬ cl.pendingUpTo < ctx.amountToCheck :=
          not_lt.mpr (le_trans hle hinv)
        have h2 : ¬ cl.approvedUpTo < ctx.amountToCheck := not_lt.mpr hle
        simp only [checkCategoryLimit, hsome, gt_iff_lt]
        rw [if_neg h1, if_neg h2]
      · intro hap hpe
        have h1 : ¬ cl.pendingUpTo < ctx.amountToCheck := not_lt.mpr hpe
        simp only [checkCategoryLimit, hsome, gt_iff_lt]
        rw [if_neg h1, if_pos hap]
      · intro hre
        simp only [checkCategoryLimit, hsome, gt_iff_lt]
        rw [if_pos hre]
  · exact convStep_amount

/-- Witness for C6: a 120 amount against limits {approvedUpTo 100,
pendingUpTo 150} is PENDING with a CATEGORY_LIMIT alert. -/
theorem category_rule_boundaries_witness :
    checkCategoryLimit ⟨⟨"w6", 120, "USD", .FOOD, ⟨20000, 0⟩⟩, emp0, polFood, 120,
        ⟨20000, 0⟩⟩ =
      (.PENDING, [⟨"CATEGORY_LIMIT", catPendingMsg 120 100⟩]) :=
  ((category_rule_boundaries.1
      ⟨⟨"w6", 120, "USD", .FOOD, ⟨20000, 0⟩⟩, emp0, polFood, 120, ⟨20000, 0⟩⟩).2
    ⟨100, 150⟩ (by decide)).2.1 (by decide) (by decide)

/-- C7: the cost-center rule yields REJECTED with exactly one
COST_CENTER_POLICY alert (naming the employee's cost center and the forbidden
category) if and only if some rule in the policy's cost-center list matches
the employee's cost center and the expense's category; with no match it
yields APPROVED with no alert. The output is the same single alert whichever
matching rule is found first, so only the first match is ever reported. -/
theorem cost_center_rule_spec (ctx : RuleContext) :
    ((∃ r ∈ ctx.policy.costCenterRules,
        r.costCenterId = ctx.employee.costCenterId ∧
        r.forbiddenCategory = ctx.expense.category) →
      checkCostCenter ctx = (.REJECTED, [⟨"COST_CENTER_POLICY",
        costCenterMsg ctx.employee.costCenterId ctx.expense.category⟩])) ∧
    ((¬ ∃ r ∈ ctx.policy.costCenterRules,
        r.costCenterId = ctx.employee.costCenterId ∧
        r.forbiddenCategory = ctx.expense.category) →
      checkCostCenter ctx = (.APPROVED, [])) := by
  constructor
  · rintro ⟨r, hr, h1, h2⟩
    have hs : (ctx.policy.costCenterRules.find? fun r =>
        r.costCenterId == ctx.employee.costCenterId &&
          r.forbiddenCategory == ctx.expense.category).isSome :=
      List.find?_isSome.mpr ⟨r, hr, by simp [h1, h2]⟩
    obtain ⟨v, hv⟩ := Option.isSome_iff_exists.mp hs
    simp only [checkCostCenter, hv]
  · intro h
    have hn : (ctx.policy.costCenterRules.find? fun r =>
        r.costCenterId == ctx.employee.costCenterId &&
          r.forbiddenCategory == ctx.expense.category) = none := by
      rw [List.find?_eq_none]
      intro x hx hpx
      rw [Bool.and_eq_true, beq_iff_eq, beq_iff_eq] at hpx
      exact h ⟨x, hx, hpx.1, hpx.2⟩
    simp only [checkCostCenter, hn]

/-- Witness for C7: a policy forbidding FOOD for cost center sales_team
rejects a FOOD expense by an employee of that cost center. -/
theorem cost_center_rule_spec_witness :
    checkCostCenter ⟨⟨"w7", 10, "USD", .FOOD, ⟨20000, 0⟩⟩, emp0,
        ⟨"USD", ⟨60, 30⟩, fun _ => none, [⟨"sales_team", .FOOD⟩]⟩, 10, ⟨20000, 0⟩⟩ =
      (.REJECTED, [⟨"COST_CENTER_POLICY", costCenterMsg "sales_team" .FOOD⟩]) :=
  (cost_center_rule_spec ⟨⟨"w7", 10, "USD", .FOOD, ⟨20000, 0⟩⟩, emp0,
      ⟨"USD", ⟨60, 30⟩, fun _ => none, [⟨"sales_team", .FOOD⟩]⟩, 10, ⟨20000, 0⟩⟩).1
    ⟨⟨"sales_team", .FOOD⟩, List.mem_singleton.mpr rfl, rfl, rfl⟩

end SpendingRules

namespace SpendingRules

/-- C8: convert returns the amount unchanged when the currencies are equal;
otherwise it resolves each currency's rate (the base currency has implicit
rate 1, any other currency is looked up in the rate mapping), fails with a
currency-not-found error when either currency resolves to nothing, returns
the amount unchanged when the two resolved rates are equal, and otherwise
returns (amount / fromRate) * toRate — for arbitrary (from, to) pairs. -/
theorem convert_currency_spec (amount : Rat) (fromCurrency toCurrency : String)
    (rates : ExchangeRates) :
    (∀ c, c = rates.base → resolveRate rates c = some 1) ∧
    (∀ c, c ≠ rates.base → resolveRate rates c = rates.rates c) ∧
    (fromCurrency = toCurrency →
      convertCurrency amount fromCurrency toCurrency rates = .ok amount) ∧
    (fromCurrency ≠ toCurrency →
      (resolveRate rates fromCurrency = none →
        convertCurrency amount fromCurrency toCurrency rates =
          .error (currencyNotFoundMsg fromCurrency)) ∧
      (∀ fr, resolveRate rates fromCurrency = some fr →
        resolveRate rates toCurrency = none →
        convertCurrency amount fromCurrency toCurrency rates =
          .error (currencyNotFoundMsg toCurrency)) ∧
      (∀ fr tr, resolveRate rates fromCurrency = some fr →
        resolveRate rates toCurrency = some tr → fr = tr →
        convertCurrency amount fromCurrency toCurrency rates = .ok amount) ∧
      (∀ fr tr, resolveRate rates fromCurrency = some fr →
        resolveRate rates toCurrency = some tr → fr ≠ tr →
        convertCurrency amount fromCurrency toCurrency rates =
          .ok (amount / fr * tr))) := by
  refine ⟨?_, ?_, ?_, ?_⟩
  · intro c hc
    simp only [resolveRate, if_pos hc]
  · intro c hc
    simp only [resolveRate, if_neg hc]
  · intro h
    simp only [convertCurrency, if_pos h]
  · intro h
    refine ⟨?_, ?_, ?_, ?_⟩
    · intro hf
      simp only [convertCurrency, if_neg h, hf]
    · intro fr hf ht
      simp only [convertCurrency, if_neg h, hf, ht]
    · intro fr tr hf ht he
      simp only [convertCurrency, if_neg h, hf, ht]
      rw [if_pos he]
    · intro fr tr hf ht hne
      simp only [convertCurrency, if_neg h, hf, ht]
      rw [if_neg hne]

/-- Witness for C8: converting 10 EUR to GBP through a USD-based table with
EUR rate 2 and GBP rate 4 yields (10 / 2) * 4. -/
theorem convert_currency_spec_witness :
    convertCurrency 10 "EUR" "GBP"
        ⟨"USD", fun c => if c = "EUR" then some 2 else
          if c = "GBP" then some 4 else none⟩ =
      .ok (10 / 2 * 4) :=
  ((convert_currency_spec 10 "EUR" "GBP"
      ⟨"USD", fun c => if c = "EUR" then some 2 else
        if c = "GBP" then some 4 else none⟩).2.2.2
    (by decide)).2.2.2 2 4 (by decide) (by decide) (by decide)

end SpendingRules

namespace SpendingRules

/-- C1 counterexample: a positive-amount call that returns a result (the rate
table is present, though its map is empty) in which all three rule statuses
are APPROVED — so their maximum under REJECTED > PENDING > APPROVED is
APPROVED — yet the returned status is PENDING, because the conversion-error
escalation overrides the maximum. -/
theorem resolution_most_restrictive_counterexample :
    checkAge ⟨⟨"c1", 10, "EUR", .OTHER, ⟨20000, 0⟩⟩, emp0, pol0, 10, ⟨20000, 5⟩⟩ =
      (.APPROVED, []) ∧
    checkCategoryLimit ⟨⟨"c1", 10, "EUR", .OTHER, ⟨20000, 0⟩⟩, emp0, pol0, 10,
      ⟨20000, 5⟩⟩ = (.APPROVED, []) ∧
    checkCostCenter ⟨⟨"c1", 10, "EUR", .OTHER, ⟨20000, 0⟩⟩, emp0, pol0, 10,
      ⟨20000, 5⟩⟩ = (.APPROVED, []) ∧
    statusMax .APPROVED (statusMax .APPROVED .APPROVED) = .APPROVED ∧
    (validateExpense ⟨"c1", 10, "EUR", .OTHER, ⟨20000, 0⟩⟩ emp0 pol0
        (some ratesEmpty) ⟨20000, 5⟩).map ValidationResult.status =
      .ok .PENDING ∧
    ExpenseStatus.PENDING ≠ ExpenseStatus.APPROVED :=
  ⟨rfl, rfl, rfl, rfl, rfl, by decide⟩

/-- C1 (amended): for every returned result with positive amount, all three
rules are evaluated — none is skipped even when an earlier rule rejects — and
every alert raised by any rule is present in the result; the returned status
is the maximum of the three rule statuses under REJECTED > PENDING >
APPROVED, except that it is escalated to PENDING when that maximum is
APPROVED and a CURRENCY_CONVERSION_ERROR alert is present. -/
theorem resolution_most_restrictive
    (expense : Expense) (employee : Employee) (policy : Policy)
    (rates : Option ExchangeRates) (asOf : JsDate)
    (amt : Rat) (cAl : List Alert) (res : ValidationResult)
    (hpos : 0 < expense.amount)
    (hconv : convStep expense policy rates = .ok (amt, cAl))
    (hok : validateExpense expense employee policy rates asOf = .ok res) :
    res.alerts = cAl ++ (checkAge ⟨expense, employee, policy, amt, asOf⟩).2 ++
        (checkCategoryLimit ⟨expense, employee, policy, amt, asOf⟩).2 ++
        (checkCostCenter ⟨expense, employee, policy, amt, asOf⟩).2 ∧
    res.status =
      (if hasConversionError res.alerts &&
          (statusMax (checkAge ⟨expense, employee, policy, amt, asOf⟩).1
            (statusMax (checkCategoryLimit ⟨expense, employee, policy, amt, asOf⟩).1
              (checkCostCenter ⟨expense, employee, policy, amt, asOf⟩).1) ==
            .APPROVED) then
        ExpenseStatus.PENDING
      else
        statusMax (checkAge ⟨expense, employee, policy, amt, asOf⟩).1
          (statusMax (checkCategoryLimit ⟨expense, employee, policy, amt, asOf⟩).1
            (checkCostCenter ⟨expense, employee, policy, amt, asOf⟩).1)) := by
  rw [validateExpense_ok_pos expense employee policy rates asOf amt cAl hpos hconv]
    at hok
  injection hok with h2
  subst h2
  refine ⟨rfl, ?_⟩
  dsimp only
  simp only [runResolved, getMostRestrictive_eq_statusMax]

/-- Witness for C1 (amended): the spec's literal scenario — 120 USD FOOD,
FOOD limits {100, 150}, FOOD forbidden for the employee's cost center —
resolves to REJECTED with both the CATEGORY_LIMIT and COST_CENTER_POLICY
alerts. -/
theorem resolution_most_restrictive_witness :
    (⟨"c1w", .REJECTED,
        [⟨"CATEGORY_LIMIT", catPendingMsg 120 100⟩,
         ⟨"COST_CENTER_POLICY", costCenterMsg "core_engineering" .FOOD⟩]⟩ :
      ValidationResult).alerts =
      [] ++ (checkAge ⟨⟨"c1w", 120, "USD", .FOOD, ⟨20000, 0⟩⟩, empCE, polScenario,
          120, ⟨20010, 0⟩⟩).2 ++
        (checkCategoryLimit ⟨⟨"c1w", 120, "USD", .FOOD, ⟨20000, 0⟩⟩, empCE,
          polScenario, 120, ⟨20010, 0⟩⟩).2 ++
        (checkCostCenter ⟨⟨"c1w", 120, "USD", .FOOD, ⟨20000, 0⟩⟩, empCE,
          polScenario, 120, ⟨20010, 0⟩⟩).2 ∧
    (⟨"c1w", .REJECTED,
        [⟨"CATEGORY_LIMIT", catPendingMsg 120 100⟩,
         ⟨"COST_CENTER_POLICY", costCenterMsg "core_engineering" .FOOD⟩]⟩ :
      ValidationResult).status =
      (if hasConversionError
          (⟨"c1w", .REJECTED,
              [⟨"CATEGORY_LIMIT", catPendingMsg 120 100⟩,
               ⟨"COST_CENTER_POLICY", costCenterMsg "core_engineering" .FOOD⟩]⟩ :
            ValidationResult).alerts &&
          (statusMax (checkAge ⟨⟨"c1w", 120, "USD", .FOOD, ⟨20000, 0⟩⟩, empCE,
              polScenario, 120, ⟨20010, 0⟩⟩).1
            (statusMax (checkCategoryLimit ⟨⟨"c1w", 120, "USD", .FOOD, ⟨20000, 0⟩⟩,
                empCE, polScenario, 120, ⟨20010, 0⟩⟩).1
              (checkCostCenter ⟨⟨"c1w", 120, "USD", .FOOD, ⟨20000, 0⟩⟩, empCE,
                polScenario, 120, ⟨20010, 0⟩⟩).1) == .APPROVED) then
        ExpenseStatus.PENDING
      else
        statusMax (checkAge ⟨⟨"c1w", 120, "USD", .FOOD, ⟨20000, 0⟩⟩, empCE,
            polScenario, 120, ⟨20010, 0⟩⟩).1
          (statusMax (checkCategoryLimit ⟨⟨"c1w", 120, "USD", .FOOD, ⟨20000, 0⟩⟩,
              empCE, polScenario, 120, ⟨20010, 0⟩⟩).1
            (checkCostCenter ⟨⟨"c1w", 120, "USD", .FOOD, ⟨20000, 0⟩⟩, empCE,
              polScenario, 120, ⟨20010, 0⟩⟩).1)) :=
  resolution_most_restrictive ⟨"c1w", 120, "USD", .FOOD, ⟨20000, 0⟩⟩ empCE
    polScenario none ⟨20010, 0⟩ 120 []
    ⟨"c1w", .REJECTED,
      [⟨"CATEGORY_LIMIT", catPendingMsg 120 100⟩,
       ⟨"COST_CENTER_POLICY", costCenterMsg "core_engineering" .FOOD⟩]⟩
    (by decide) (by rfl) (by rfl)

end SpendingRules

namespace SpendingRules

/-- C4 counterexample: a 10 EUR expense 100 days old, converted through a
USD-based table, yields the alert codes in the order
[CURRENCY_MISMATCH, AGE_LIMIT] — the conversion-related alert comes first,
not last. -/
theorem alert_append_order_counterexample :
    (validateExpense ⟨"c4", 10, "EUR", .OTHER, ⟨20000, 0⟩⟩ emp0 pol0
        (some ratesUSD) ⟨20100, 0⟩).map (fun r => r.alerts.map Alert.code) =
      .ok ["CURRENCY_MISMATCH", "AGE_LIMIT"] := rfl

/-- C4 (amended): in every returned result with positive amount, the alerts
appear in the deterministic append order: any conversion-related alerts
(CURRENCY_MISMATCH or CURRENCY_CONVERSION_ERROR) first, then age alerts, then
category-limit alerts, then cost-center alerts. -/
theorem alert_append_order
    (expense : Expense) (employee : Employee) (policy : Policy)
    (rates : Option ExchangeRates) (asOf : JsDate)
    (amt : Rat) (cAl : List Alert) (res : ValidationResult)
    (hpos : 0 < expense.amount)
    (hconv : convStep expense policy rates = .ok (amt, cAl))
    (hok : validateExpense expense employee policy rates asOf = .ok res) :
    res.alerts = cAl ++ (checkAge ⟨expense, employee, policy, amt, asOf⟩).2 ++
        (checkCategoryLimit ⟨expense, employee, policy, amt, asOf⟩).2 ++
        (checkCostCenter ⟨expense, employee, policy, amt, asOf⟩).2 ∧
    (∀ a ∈ cAl, a.code = "CURRENCY_MISMATCH" ∨
      a.code = "CURRENCY_CONVERSION_ERROR") ∧
    (∀ a ∈ (checkAge ⟨expense, employee, policy, amt, asOf⟩).2,
      a.code = "AGE_LIMIT") ∧
    (∀ a ∈ (checkCategoryLimit ⟨expense, employee, policy, amt, asOf⟩).2,
      a.code = "CATEGORY_LIMIT") ∧
    (∀ a ∈ (checkCostCenter ⟨expense, employee, policy, amt, asOf⟩).2,
      a.code = "COST_CENTER_POLICY") := by
  rw [validateExpense_ok_pos expense employee policy rates asOf amt cAl hpos hconv]
    at hok
  injection hok with h2
  subst h2
  exact ⟨rfl, convStep_alert_codes expense policy rates amt cAl hconv,
    checkAge_alert_codes _, checkCategoryLimit_alert_codes _,
    checkCostCenter_alert_codes _⟩

/-- Witness for C4 (amended): the counterexample input instantiated in the
amended theorem — conversion alert first, then the age alert. -/
theorem alert_append_order_witness :
    (⟨"c4", .REJECTED,
        [⟨"CURRENCY_MISMATCH", currencyMismatchMsg 10 "EUR" (10 / 2 * 1) "USD"⟩,
         ⟨"AGE_LIMIT", ageRejectedMsg 100 60⟩]⟩ : ValidationResult).alerts =
      [⟨"CURRENCY_MISMATCH", currencyMismatchMsg 10 "EUR" (10 / 2 * 1) "USD"⟩] ++
        (checkAge ⟨⟨"c4", 10, "EUR", .OTHER, ⟨20000, 0⟩⟩, emp0, pol0, 10 / 2 * 1,
          ⟨20100, 0⟩⟩).2 ++
        (checkCategoryLimit ⟨⟨"c4", 10, "EUR", .OTHER, ⟨20000, 0⟩⟩, emp0, pol0,
          10 / 2 * 1, ⟨20100, 0⟩⟩).2 ++
        (checkCostCenter ⟨⟨"c4", 10, "EUR", .OTHER, ⟨20000, 0⟩⟩, emp0, pol0,
          10 / 2 * 1, ⟨20100, 0⟩⟩).2 ∧
    (∀ a ∈ [(⟨"CURRENCY_MISMATCH",
        currencyMismatchMsg 10 "EUR" (10 / 2 * 1) "USD"⟩ : Alert)],
      a.code = "CURRENCY_MISMATCH" ∨ a.code = "CURRENCY_CONVERSION_ERROR") ∧
    (∀ a ∈ (checkAge ⟨⟨"c4", 10, "EUR", .OTHER, ⟨20000, 0⟩⟩, emp0, pol0,
        10 / 2 * 1, ⟨20100, 0⟩⟩).2, a.code = "AGE_LIMIT") ∧
    (∀ a ∈ (checkCategoryLimit ⟨⟨"c4", 10, "EUR", .OTHER, ⟨20000, 0⟩⟩, emp0, pol0,
        10 / 2 * 1, ⟨20100, 0⟩⟩).2, a.code = "CATEGORY_LIMIT") ∧
    (∀ a ∈ (checkCostCenter ⟨⟨"c4", 10, "EUR", .OTHER, ⟨20000, 0⟩⟩, emp0, pol0,
        10 / 2 * 1, ⟨20100, 0⟩⟩).2, a.code = "COST_CENTER_POLICY") :=
  alert_append_order ⟨"c4", 10, "EUR", .OTHER, ⟨20000, 0⟩⟩ emp0 pol0
    (some ratesUSD) ⟨20100, 0⟩ (10 / 2 * 1)
    [⟨"CURRENCY_MISMATCH", currencyMismatchMsg 10 "EUR" (10 / 2 * 1) "USD"⟩]
    ⟨"c4", .REJECTED,
      [⟨"CURRENCY_MISMATCH", currencyMismatchMsg 10 "EUR" (10 / 2 * 1) "USD"⟩,
       ⟨"AGE_LIMIT", ageRejectedMsg 100 60⟩]⟩
    (by decide) (by rfl) (by rfl)

end SpendingRules
